import Mathlib

/-!
Verification development for the clrk investment-ledger tool.

The transaction applier (`buy_sell_transaction`, `dividend_transaction`,
`xfer_transaction`, `contribute_transaction`, `withdrawal_transaction`,
dispatched by `process_transaction`) and the report generators
(`gen_report_monthly_income`, `gen_report_monthly_income_sched`,
`gen_report_monthly_income_actual`, `gen_report_tfsa_summary`) are embedded
as pure Lean functions on explicit ledger/log state.

Modelling conventions:
* Monetary values (floats in the source) are modelled as exact rationals
  `ℚ`; Python's `round(x, 2)` is modelled by `round2`, which rounds to the
  nearest cent with ties resolved half-to-even, mirroring Python rounding
  on exact values.  Unit counts are `Int` as in the CSV schema.
* Dates are the ISO `YYYY-MM-DD` strings the tool writes; pandas sorts
  them lexicographically, modelled by `String` order.
* The pandas dataframes are modelled as lists of records; `.loc` updates
  become `updateAsset`, CSV appends become list appends.
* Each transaction handler returns the pair (optional error, state after
  the call): the Python handlers print an error and return `False` before
  any file write on every validation failure, and write the assets file
  and/or append to the transactions file on success.
-/

inductive Account where
  | sdrsp
  | locked_sdrsp
  | margin
  | tfsa
  | resp
deriving DecidableEq, Repr, Fintype

def accountStr : Account → String
  | .sdrsp => "sdrsp"
  | .locked_sdrsp => "locked_sdrsp"
  | .margin => "margin"
  | .tfsa => "tfsa"
  | .resp => "resp"

inductive TType where
  | buy
  | sell
  | xfer
  | cont
  | cont_limit
  | div
  | withdraw
deriving DecidableEq, Repr, Fintype

def typeLabel : TType → String
  | .buy => "buy"
  | .sell => "sell"
  | .xfer => "xfer"
  | .cont => "cont"
  | .cont_limit => "cont_limit"
  | .div => "div"
  | .withdraw => "withdraw"

/-- One row of `assets.csv`: the per-asset ledger entry. -/
structure Asset where
  name : String
  market : String
  type : String
  subtype : String
  income_per_unit_period : ℚ
  sdrsp : Int
  locked_sdrsp : Int
  margin : Int
  tfsa : Int
  resp : Int
  income_freq_months : Int
  income_first_month : Int
  income_day_of_month : Int
deriving DecidableEq, Repr

/-- One row of `transactions.csv`.  `xfer_account` is `""` for the
transaction types that write an empty cell there. -/
structure TransRecord where
  date : String
  type : TType
  name : String
  account : String
  xfer_account : String
  units : Int
  unit_amount : ℚ
  fees : ℚ
  total : ℚ
deriving DecidableEq, Repr

/-- A validated transaction request as produced by the argparse layer. -/
structure Args where
  type : TType
  account : Account
  xfer_account : Option Account
  name : String
  units : Int
  amount : ℚ
  date : String
  fees : ℚ
deriving DecidableEq, Repr

/-- The durable state a transaction command reads and rewrites: the asset
ledger (`assets.csv`) and the transaction log (`transactions.csv`). -/
structure St where
  assets : List Asset
  transactions : List TransRecord
deriving DecidableEq, Repr

/-- The error taxonomy of the validation failures. -/
inductive TErr where
  | UnknownAsset
  | InsufficientUnits
  | MissingTransferTarget
  | InvalidContributionSubject
  | InvalidAmount
deriving DecidableEq, Repr

def getAcct (a : Asset) : Account → Int
  | .sdrsp => a.sdrsp
  | .locked_sdrsp => a.locked_sdrsp
  | .margin => a.margin
  | .tfsa => a.tfsa
  | .resp => a.resp

def setAcct (a : Asset) (acct : Account) (v : Int) : Asset :=
  match acct with
  | .sdrsp => { a with sdrsp := v }
  | .locked_sdrsp => { a with locked_sdrsp := v }
  | .margin => { a with margin := v }
  | .tfsa => { a with tfsa := v }
  | .resp => { a with resp := v }

/-- `assets.loc[name, ...]` lookup on the name-indexed assets frame. -/
def lookupAsset (assets : List Asset) (name : String) : Option Asset :=
  assets.find? (fun a => a.name == name)

/-- `assets.loc[name, col] = v`: update every row whose index equals
`name` (the frame is indexed by the name column). -/
def updateAsset (assets : List Asset) (name : String) (f : Asset → Asset) :
    List Asset :=
  assets.map (fun a => if a.name == name then f a else a)

/-- Python's `round` to an integer: nearest, ties to even. -/
def roundHalfEven (q : ℚ) : ℤ :=
  if q - ⌊q⌋ < 1 / 2 then ⌊q⌋
  else if 1 / 2 < q - ⌊q⌋ then ⌊q⌋ + 1
  else if ⌊q⌋ % 2 = 0 then ⌊q⌋ else ⌊q⌋ + 1

/-- Python's `round(x, 2)` on exact values. -/
def round2 (q : ℚ) : ℚ := (roundHalfEven (q * 100) : ℚ) / 100

/-- Handler for `buy` and `sell` transactions (`buy_sell_transaction` in
the source). -/
def buy_sell_transaction (args : Args) (s : St) : Option TErr × St :=
  match lookupAsset s.assets args.name with
  | none => (some .UnknownAsset, s)
  | some a =>
    let current_acct_units := getAcct a args.account
    let updated_acct_units :=
      if args.type = .sell then current_acct_units - args.units
      else current_acct_units + args.units
    if args.type = .sell ∧ updated_acct_units < 0 then
      (some .InsufficientUnits, s)
    else
      let assets1 := updateAsset s.assets args.name
        (fun b => setAcct b args.account updated_acct_units)
      let s1 : St := { s with assets := assets1 }
      let rec1 : TransRecord :=
        { date := args.date, type := args.type, name := args.name,
          account := accountStr args.account, xfer_account := "",
          units := args.units, unit_amount := round2 args.amount,
          fees := round2 args.fees,
          total := round2 ((args.units : ℚ) * args.amount + args.fees) }
      (none, { s1 with transactions := s1.transactions ++ [rec1] })

/-- Handler for `div` transactions (`dividend_transaction`). -/
def dividend_transaction (args : Args) (s : St) : Option TErr × St :=
  match lookupAsset s.assets args.name with
  | none => (some .UnknownAsset, s)
  | some a =>
    let dividend := a.income_per_unit_period
    let assets1 := updateAsset s.assets args.name
      (fun b => { b with income_per_unit_period := args.amount })
    let s1 : St :=
      if dividend ≠ args.amount then { s with assets := assets1 } else s
    let rec1 : TransRecord :=
      { date := args.date, type := args.type, name := args.name,
        account := accountStr args.account, xfer_account := "",
        units := args.units, unit_amount := args.amount,
        fees := round2 args.fees,
        total := round2 ((args.units : ℚ) * args.amount - args.fees) }
    (none, { s1 with transactions := s1.transactions ++ [rec1] })

/-- Handler for `xfer` transactions (`xfer_transaction`).  The target
cell is read before either cell is written, and the two `.loc` writes are
applied in source order. -/
def xfer_transaction (args : Args) (s : St) : Option TErr × St :=
  match args.xfer_account with
  | none => (some .MissingTransferTarget, s)
  | some tgt =>
    match lookupAsset s.assets args.name with
    | none => (some .UnknownAsset, s)
    | some a =>
      let current_acct_units := getAcct a args.account
      let current_xfer_acct_units := getAcct a tgt
      let updated_acct_units := current_acct_units - args.units
      if updated_acct_units < 0 then (some .InsufficientUnits, s)
      else
        let updated_xfer_acct_units := current_xfer_acct_units + args.units
        let assets1 := updateAsset s.assets args.name
          (fun b => setAcct b args.account updated_acct_units)
        let s1 : St := { s with assets := assets1 }
        let assets2 := updateAsset s1.assets args.name
          (fun b => setAcct b tgt updated_xfer_acct_units)
        let s2 : St := { s1 with assets := assets2 }
        let rec1 : TransRecord :=
          { date := args.date, type := args.type, name := args.name,
            account := accountStr args.account,
            xfer_account := accountStr tgt,
            units := args.units, unit_amount := round2 args.amount,
            fees := round2 args.fees,
            total := round2 ((args.units : ℚ) * args.amount + args.fees) }
        (none, { s2 with transactions := s2.transactions ++ [rec1] })

/-- Handler for `cont` and `cont_limit` transactions
(`contribute_transaction`). -/
def contribute_transaction (args : Args) (s : St) : Option TErr × St :=
  if args.amount < 0 then (some .InvalidAmount, s)
  else if args.type = .cont ∧ args.name ≠ "cash" then
    (some .InvalidContributionSubject, s)
  else if args.type = .cont_limit ∧ args.name ≠ "any" then
    (some .InvalidContributionSubject, s)
  else
    let rec1 : TransRecord :=
      { date := args.date, type := args.type, name := args.name,
        account := accountStr args.account, xfer_account := "",
        units := args.units, unit_amount := round2 args.amount,
        fees := round2 args.fees,
        total := round2 ((args.units : ℚ) * args.amount + args.fees) }
    (none, { s with transactions := s.transactions ++ [rec1] })

/-- Handler for `withdraw` transactions (`withdrawal_transaction`). -/
def withdrawal_transaction (args : Args) (s : St) : Option TErr × St :=
  if args.amount ≤ 0 then (some .InvalidAmount, s)
  else if args.type = .withdraw ∧ args.name ≠ "cash" then
    (some .InvalidContributionSubject, s)
  else
    let rec1 : TransRecord :=
      { date := args.date, type := args.type, name := args.name,
        account := accountStr args.account, xfer_account := "",
        units := args.units, unit_amount := round2 args.amount,
        fees := round2 args.fees,
        total := round2 ((args.units : ℚ) * args.amount) }
    (none, { s with transactions := s.transactions ++ [rec1] })

/-- The `process_transaction` dispatch table. -/
def process_transaction (args : Args) (s : St) : Option TErr × St :=
  match args.type with
  | .buy => buy_sell_transaction args s
  | .sell => buy_sell_transaction args s
  | .xfer => xfer_transaction args s
  | .cont => contribute_transaction args s
  | .cont_limit => contribute_transaction args s
  | .div => dividend_transaction args s
  | .withdraw => withdrawal_transaction args s

/-- Applying a whole sequence of requests, threading the stored state the
way the interactive loop does (each command reloads what the previous one
wrote). -/
def applySeq (reqs : List Args) (s : St) : St :=
  reqs.foldl (fun st args => (process_transaction args st).2) s

/-! ## Report generators -/

/-- One row of the `monthly_income` / `monthly_income_actual` reports. -/
structure MIRow where
  name : String
  sdrsp : ℚ
  locked_sdrsp : ℚ
  margin : ℚ
  tfsa : ℚ
  resp : ℚ
  total_rrsp : ℚ
  total_nonrrsp : ℚ
  monthly_total : ℚ
  yearly_total : ℚ
deriving DecidableEq, Repr

def colSum (rows : List MIRow) (f : MIRow → ℚ) : ℚ := (rows.map f).sum

/-- `assets[account] * income_per_unit_period / income_freq_months`. -/
def acctIncome (a : Asset) (acct : Account) : ℚ :=
  (getAcct a acct : ℚ) * a.income_per_unit_period / (a.income_freq_months : ℚ)

/-- The per-asset row of the projection report before the `monthly_total`
and `yearly_total` columns are added (columns absent at this stage are
held at 0 until the corresponding column assignment overwrites them). -/
def baseRow (a : Asset) : MIRow :=
  { name := a.name,
    sdrsp := acctIncome a .sdrsp,
    locked_sdrsp := acctIncome a .locked_sdrsp,
    margin := acctIncome a .margin,
    tfsa := acctIncome a .tfsa,
    resp := acctIncome a .resp,
    total_rrsp := acctIncome a .sdrsp + acctIncome a .locked_sdrsp,
    total_nonrrsp := acctIncome a .margin + acctIncome a .tfsa,
    monthly_total := 0,
    yearly_total := 0 }

/-- The `TOTAL MONTHLY` row built from the per-asset rows (`series.sum()`
per numeric column of the frame at that point). -/
def monthlyByAccountRow (rows : List MIRow) : MIRow :=
  { name := "TOTAL MONTHLY",
    sdrsp := colSum rows (·.sdrsp),
    locked_sdrsp := colSum rows (·.locked_sdrsp),
    margin := colSum rows (·.margin),
    tfsa := colSum rows (·.tfsa),
    resp := colSum rows (·.resp),
    total_rrsp := colSum rows (·.total_rrsp),
    total_nonrrsp := colSum rows (·.total_nonrrsp),
    monthly_total := 0,
    yearly_total := 0 }

/-- `report['monthly_total'] = resp + total_rrsp + total_nonrrsp`. -/
def addMonthly (r : MIRow) : MIRow :=
  { r with monthly_total := r.resp + r.total_rrsp + r.total_nonrrsp }

/-- `report['yearly_total'] = monthly_total * 12`. -/
def addYearly (r : MIRow) : MIRow :=
  { r with yearly_total := r.monthly_total * 12 }

/-- `gen_report_monthly_income` of the source: per-asset rows, a
`TOTAL MONTHLY` row, the two derived columns, and a `TOTAL YEARLY` row
built from the rows whose name is `TOTAL MONTHLY`, with its own
`yearly_total` cell forced to 0. -/
def gen_report_monthly_income (assets : List Asset) : List MIRow :=
  let report0 := assets.map baseRow
  let rows1 := report0 ++ [monthlyByAccountRow report0]
  let rows2 := rows1.map addMonthly
  let monthly_totals := rows2.filter (fun r => r.name == "TOTAL MONTHLY")
  let rows3 := rows2.map addYearly
  let ty : MIRow :=
    { name := "TOTAL YEARLY",
      sdrsp := colSum monthly_totals (·.sdrsp) * 12,
      locked_sdrsp := colSum monthly_totals (·.locked_sdrsp) * 12,
      margin := colSum monthly_totals (·.margin) * 12,
      tfsa := colSum monthly_totals (·.tfsa) * 12,
      resp := colSum monthly_totals (·.resp) * 12,
      total_rrsp := colSum monthly_totals (·.total_rrsp) * 12,
      total_nonrrsp := colSum monthly_totals (·.total_nonrrsp) * 12,
      monthly_total := colSum monthly_totals (·.monthly_total) * 12,
      yearly_total := 0 }
  rows3 ++ [ty]

/-- The finished per-asset row of the projection report. -/
def fullAssetRow (a : Asset) : MIRow := addYearly (addMonthly (baseRow a))

/-- The `TOTAL MONTHLY` row as the claim describes it: the column-wise
sum of all finished per-asset rows. -/
def specTotalMonthlyRow (assets : List Asset) : MIRow :=
  let rows := assets.map fullAssetRow
  { name := "TOTAL MONTHLY",
    sdrsp := colSum rows (·.sdrsp),
    locked_sdrsp := colSum rows (·.locked_sdrsp),
    margin := colSum rows (·.margin),
    tfsa := colSum rows (·.tfsa),
    resp := colSum rows (·.resp),
    total_rrsp := colSum rows (·.total_rrsp),
    total_nonrrsp := colSum rows (·.total_nonrrsp),
    monthly_total := colSum rows (·.monthly_total),
    yearly_total := colSum rows (·.yearly_total) }

/-- The `TOTAL YEARLY` row as the claim describes it: 12 times the
`TOTAL MONTHLY` row's account and total columns, `yearly_total` 0. -/
def specTotalYearlyRow (assets : List Asset) : MIRow :=
  let tm := specTotalMonthlyRow assets
  { name := "TOTAL YEARLY",
    sdrsp := 12 * tm.sdrsp,
    locked_sdrsp := 12 * tm.locked_sdrsp,
    margin := 12 * tm.margin,
    tfsa := 12 * tm.tfsa,
    resp := 12 * tm.resp,
    total_rrsp := 12 * tm.total_rrsp,
    total_nonrrsp := 12 * tm.total_nonrrsp,
    monthly_total := 12 * tm.monthly_total,
    yearly_total := 0 }

/-- One month's (rrsp, nonrrsp) cell pair of the schedule report for one
asset: the body of the month loop in `gen_report_monthly_income_sched`,
with `income['rrsp'] = sdrsp*rate + locked_sdrsp*rate` and
`income['nonrrsp'] = margin*rate + tfsa*rate`. -/
def schedCell (a : Asset) (month : Int) : ℚ × ℚ :=
  if a.income_first_month ≤ month then
    (if (month - a.income_first_month) % a.income_freq_months = 0 then
        (a.sdrsp : ℚ) * a.income_per_unit_period
          + (a.locked_sdrsp : ℚ) * a.income_per_unit_period
      else 0,
     if (month - a.income_first_month) % a.income_freq_months = 0 then
        (a.margin : ℚ) * a.income_per_unit_period
          + (a.tfsa : ℚ) * a.income_per_unit_period
      else 0)
  else (0, 0)

/-- The 12 monthly cell pairs of one asset's schedule row. -/
def schedRowCells (a : Asset) : List (ℚ × ℚ) :=
  (List.range 12).map (fun m => schedCell a ((m : Int) + 1))

/-- `gen_report_monthly_income_sched`: one row per asset plus a trailing
`TOTAL` row summing every column down the asset rows. -/
def gen_report_monthly_income_sched (assets : List Asset) :
    List (String × List (ℚ × ℚ)) :=
  assets.map (fun a => (a.name, schedRowCells a)) ++
    [("TOTAL",
      (List.range 12).map (fun m =>
        ((assets.map (fun a => (schedCell a ((m : Int) + 1)).1)).sum,
         (assets.map (fun a => (schedCell a ((m : Int) + 1)).2)).sum)))]

/-- `sort_values('date')` compares the ISO date strings. -/
def dateLE (r1 r2 : TransRecord) : Prop := r1.date ≤ r2.date

instance : DecidableRel dateLE := fun a b =>
  inferInstanceAs (Decidable (a.date ≤ b.date))

instance : IsTotal TransRecord dateLE := ⟨fun a b => le_total a.date b.date⟩

instance : IsTrans TransRecord dateLE := ⟨fun _ _ _ => le_trans⟩

/-- A stable ascending sort by date, modelling
`sort_values('date')` on the div-transaction frame. -/
def sortValuesDate (l : List TransRecord) : List TransRecord :=
  List.insertionSort dateLE l

/-- `trans[trans['type']=='div']`. -/
def divTrans (trans : List TransRecord) : List TransRecord :=
  trans.filter (fun r => r.type == TType.div)

/-- The div transactions of one (asset, account) pair, in log order. -/
def divHistory (trans : List TransRecord) (name acctS : String) :
    List TransRecord :=
  (divTrans trans).filter (fun r => r.name == name && r.account == acctS)

/-- The per-account cell of the actual-income report: the income loop
body of `gen_report_monthly_income_actual` for one asset and account. -/
def actualIncomeCell (trans : List TransRecord) (a : Asset)
    (acct : Account) : ℚ :=
  let div_income : ℚ :=
    if 0 < getAcct a acct then
      match (sortValuesDate (divHistory trans a.name (accountStr acct))).getLast? with
      | some r => r.total
      | none => 0
    else 0
  div_income / (a.income_freq_months : ℚ)

/-- The finished per-asset row of the actual-income report. -/
def actualRow (trans : List TransRecord) (a : Asset) : MIRow :=
  let c := actualIncomeCell trans a
  let total_rrsp := c .sdrsp + c .locked_sdrsp
  let total_nonrrsp := c .margin + c .tfsa
  let monthly_total := total_rrsp + total_nonrrsp + c .resp
  { name := a.name,
    sdrsp := c .sdrsp,
    locked_sdrsp := c .locked_sdrsp,
    margin := c .margin,
    tfsa := c .tfsa,
    resp := c .resp,
    total_rrsp := total_rrsp,
    total_nonrrsp := total_nonrrsp,
    monthly_total := monthly_total,
    yearly_total := monthly_total * 12 }

/-- `gen_report_monthly_income_actual`: per-asset rows plus
`TOTAL_MONTHLY` (the exact column sums) and `TOTAL_YEARLY` (12 times the
monthly totals, `yearly_total` forced to 0). -/
def gen_report_monthly_income_actual (assets : List Asset)
    (trans : List TransRecord) : List MIRow :=
  let rows := assets.map (actualRow trans)
  let tm : MIRow :=
    { name := "TOTAL_MONTHLY",
      sdrsp := colSum rows (·.sdrsp),
      locked_sdrsp := colSum rows (·.locked_sdrsp),
      margin := colSum rows (·.margin),
      tfsa := colSum rows (·.tfsa),
      resp := colSum rows (·.resp),
      total_rrsp := colSum rows (·.total_rrsp),
      total_nonrrsp := colSum rows (·.total_nonrrsp),
      monthly_total := colSum rows (·.monthly_total),
      yearly_total := colSum rows (·.yearly_total) }
  let ty : MIRow :=
    { name := "TOTAL_YEARLY",
      sdrsp := tm.sdrsp * 12,
      locked_sdrsp := tm.locked_sdrsp * 12,
      margin := tm.margin * 12,
      tfsa := tm.tfsa * 12,
      resp := tm.resp * 12,
      total_rrsp := tm.total_rrsp * 12,
      total_nonrrsp := tm.total_nonrrsp * 12,
      monthly_total := tm.monthly_total * 12,
      yearly_total := 0 }
  rows ++ [tm, ty]

/-! ### TFSA contribution-room summary -/

/-- The row filter of `gen_report_tfsa_summary`:
`(type in {cont, cont_limit, withdraw} and account == 'tfsa') or
(xfer_account == 'tfsa')`. -/
def tfsaFilter (r : TransRecord) : Bool :=
  ((r.type == TType.cont || r.type == TType.cont_limit
      || r.type == TType.withdraw) && r.account == "tfsa")
    || r.xfer_account == "tfsa"

def tfsaRecords (trans : List TransRecord) : List TransRecord :=
  trans.filter tfsaFilter

/-- The relabelling pass: a filtered record of type `xfer` is shown under
the label `xfer_in`; every other record keeps its type label. -/
def relabelXferIn (r : TransRecord) : String :=
  if r.type = TType.xfer then "xfer_in" else typeLabel r.type

/-- The distinct group labels of the filtered records (`groupby['type']`
keys). -/
def tfsaLabels (trans : List TransRecord) : List String :=
  ((tfsaRecords trans).map relabelXferIn).dedup

/-- The summed `total` of one groupby key. -/
def sumForLabel (trans : List TransRecord) (lbl : String) : ℚ :=
  (((tfsaRecords trans).filter (fun r => relabelXferIn r == lbl)).map
    (fun r => r.total)).sum

/-- The row count of one groupby key. -/
def countForLabel (trans : List TransRecord) (lbl : String) : Nat :=
  ((tfsaRecords trans).filter (fun r => relabelXferIn r == lbl)).length

/-- The grouped `num`/`total` rows of the summary. -/
def tfsaGroupRows (trans : List TransRecord) : List (String × Nat × ℚ) :=
  (tfsaLabels trans).map
    (fun lbl => (lbl, countForLabel trans lbl, sumForLabel trans lbl))

/-- `report['total'][key]` with the `KeyError → 0.0` fallback. -/
def totalForKey (rows : List (String × Nat × ℚ)) (key : String) : ℚ :=
  match rows.find? (fun row => row.1 == key) with
  | some row => row.2.2
  | none => 0

/-- `cont_limit + withdraw - cont - xfer_in` over the grouped rows. -/
def contRoom (trans : List TransRecord) : ℚ :=
  let rows := tfsaGroupRows trans
  totalForKey rows "cont_limit" + totalForKey rows "withdraw"
    - totalForKey rows "cont" - totalForKey rows "xfer_in"

/-- `gen_report_tfsa_summary`: the grouped rows plus the synthetic
`cont_room` row with count 1. -/
def gen_report_tfsa_summary (trans : List TransRecord) :
    List (String × Nat × ℚ) :=
  tfsaGroupRows trans ++ [("cont_room", 1, contRoom trans)]

/-! ## Per-handler facts about validation failures -/

theorem buy_sell_fail (args : Args) (s : St) (e : TErr)
    (h : (buy_sell_transaction args s).1 = some e) :
    (buy_sell_transaction args s).2 = s := by
  unfold buy_sell_transaction at h ⊢
  repeat' split
  all_goals try simp_all
  all_goals repeat' split
  all_goals simp_all

theorem dividend_fail (args : Args) (s : St) (e : TErr)
    (h : (dividend_transaction args s).1 = some e) :
    (dividend_transaction args s).2 = s := by
  unfold dividend_transaction at h ⊢
  repeat' split
  all_goals simp_all

theorem xfer_fail (args : Args) (s : St) (e : TErr)
    (h : (xfer_transaction args s).1 = some e) :
    (xfer_transaction args s).2 = s := by
  unfold xfer_transaction at h ⊢
  repeat' split
  all_goals try simp_all
  all_goals repeat' split
  all_goals simp_all

theorem contribute_fail (args : Args) (s : St) (e : TErr)
    (h : (contribute_transaction args s).1 = some e) :
    (contribute_transaction args s).2 = s := by
  unfold contribute_transaction at h ⊢
  repeat' split
  all_goals simp_all

theorem withdrawal_fail (args : Args) (s : St) (e : TErr)
    (h : (withdrawal_transaction args s).1 = some e) :
    (withdrawal_transaction args s).2 = s := by
  unfold withdrawal_transaction at h ⊢
  repeat' split
  all_goals simp_all

/-- C1: whenever a transaction request of any type fails validation (the
handler reports an error), neither the asset ledger nor the transaction
log is mutated: the post-call state equals the pre-call state. -/
theorem c1_failure_leaves_stores_unchanged (args : Args) (s : St) (e : TErr)
    (h : (process_transaction args s).1 = some e) :
    (process_transaction args s).2 = s := by
  unfold process_transaction at h ⊢
  split at h <;>
    first
    | exact buy_sell_fail _ _ _ h
    | exact dividend_fail _ _ _ h
    | exact xfer_fail _ _ _ h
    | exact contribute_fail _ _ _ h
    | exact withdrawal_fail _ _ _ h

def emptySt : St := { assets := [], transactions := [] }

def unknownAssetArgs : Args :=
  { type := .buy, account := .margin, xfer_account := none,
    name := "ZZZ", units := 1, amount := 1, date := "2021-01-01", fees := 0 }

/-- Witness for C1 at a concrete failing input. -/
theorem c1_failure_witness :
    (process_transaction unknownAssetArgs emptySt).1 = some TErr.UnknownAsset ∧
      (process_transaction unknownAssetArgs emptySt).2 = emptySt :=
  ⟨by decide,
   c1_failure_leaves_stores_unchanged unknownAssetArgs emptySt .UnknownAsset
     (by decide)⟩

/-! ## Nonnegativity of balances -/

theorem getAcct_setAcct (a : Asset) (acct1 acct2 : Account) (v : Int) :
    getAcct (setAcct a acct1 v) acct2 =
      if acct2 = acct1 then v else getAcct a acct2 := by
  cases acct1 <;> cases acct2 <;> simp [getAcct, setAcct]

theorem getAcct_set_income (a : Asset) (x : ℚ) (acct : Account) :
    getAcct { a with income_per_unit_period := x } acct = getAcct a acct := by
  cases acct <;> rfl

theorem lookup_mem {assets : List Asset} {name : String} {a : Asset}
    (h : lookupAsset assets name = some a) : a ∈ assets :=
  List.mem_of_find?_eq_some h

theorem nonneg_updateAsset_setAcct {assets : List Asset} {name : String}
    {acct : Account} {v : Int} (hv : 0 ≤ v)
    (hs : ∀ a ∈ assets, ∀ acct2, 0 ≤ getAcct a acct2) :
    ∀ b ∈ updateAsset assets name (fun a => setAcct a acct v),
      ∀ acct2, 0 ≤ getAcct b acct2 := by
  intro b hb acct2
  rw [updateAsset, List.mem_map] at hb
  obtain ⟨a, ha, rfl⟩ := hb
  by_cases hn : (a.name == name) = true
  · rw [if_pos hn, getAcct_setAcct]
    split
    · exact hv
    · exact hs a ha acct2
  · rw [if_neg hn]
    exact hs a ha acct2

theorem buy_sell_nonneg (args : Args) (s : St) (hu : 0 ≤ args.units)
    (hs : ∀ a ∈ s.assets, ∀ acct, 0 ≤ getAcct a acct) :
    ∀ b ∈ (buy_sell_transaction args s).2.assets, ∀ acct, 0 ≤ getAcct b acct := by
  unfold buy_sell_transaction
  dsimp only
  split
  · exact hs
  case h_2 a hfind =>
    have hcur := hs a (lookup_mem hfind) args.account
    split
    case isTrue hsell =>
      split
      · exact hs
      case isFalse hguard =>
        have hok : ¬(getAcct a args.account - args.units < 0) :=
          fun hlt => hguard ⟨hsell, hlt⟩
        exact nonneg_updateAsset_setAcct (by omega) hs
    case isFalse hnsell =>
      split
      · exact hs
      · exact nonneg_updateAsset_setAcct (by omega) hs

theorem xfer_nonneg (args : Args) (s : St) (hu : 0 ≤ args.units)
    (hs : ∀ a ∈ s.assets, ∀ acct, 0 ≤ getAcct a acct) :
    ∀ b ∈ (xfer_transaction args s).2.assets, ∀ acct, 0 ≤ getAcct b acct := by
  unfold xfer_transaction
  dsimp only
  split
  · exact hs
  case h_2 tgt hx =>
    split
    · exact hs
    case h_2 a hfind =>
      have hcur := hs a (lookup_mem hfind) args.account
      have hcurT := hs a (lookup_mem hfind) tgt
      split
      · exact hs
      case isFalse hguard =>
        exact nonneg_updateAsset_setAcct (by omega)
          (nonneg_updateAsset_setAcct (by omega) hs)

theorem dividend_nonneg (args : Args) (s : St)
    (hs : ∀ a ∈ s.assets, ∀ acct, 0 ≤ getAcct a acct) :
    ∀ b ∈ (dividend_transaction args s).2.assets, ∀ acct, 0 ≤ getAcct b acct := by
  unfold dividend_transaction
  dsimp only
  split
  · exact hs
  case h_2 a hfind =>
    split
    case isTrue =>
      intro b hb acct2
      rw [updateAsset, List.mem_map] at hb
      obtain ⟨c, hc, rfl⟩ := hb
      by_cases hn : (c.name == args.name) = true
      · rw [if_pos hn, getAcct_set_income]
        exact hs c hc acct2
      · rw [if_neg hn]
        exact hs c hc acct2
    case isFalse => exact hs

theorem contribute_nonneg (args : Args) (s : St)
    (hs : ∀ a ∈ s.assets, ∀ acct, 0 ≤ getAcct a acct) :
    ∀ b ∈ (contribute_transaction args s).2.assets, ∀ acct, 0 ≤ getAcct b acct := by
  unfold contribute_transaction
  dsimp only
  repeat' split
  all_goals exact hs

theorem withdrawal_nonneg (args : Args) (s : St)
    (hs : ∀ a ∈ s.assets, ∀ acct, 0 ≤ getAcct a acct) :
    ∀ b ∈ (withdrawal_transaction args s).2.assets, ∀ acct, 0 ≤ getAcct b acct := by
  unfold withdrawal_transaction
  dsimp only
  repeat' split
  all_goals exact hs

theorem process_preserves_nonneg (args : Args) (s : St)
    (hu : 0 ≤ args.units)
    (hs : ∀ a ∈ s.assets, ∀ acct, 0 ≤ getAcct a acct) :
    ∀ b ∈ (process_transaction args s).2.assets, ∀ acct, 0 ≤ getAcct b acct := by
  unfold process_transaction
  split
  all_goals first
    | exact buy_sell_nonneg args s hu hs
    | exact xfer_nonneg args s hu hs
    | exact dividend_nonneg args s hs
    | exact contribute_nonneg args s hs
    | exact withdrawal_nonneg args s hs

def assetA : Asset :=
  { name := "A", market := "TSE", type := "stock", subtype := "common",
    income_per_unit_period := 1/10, sdrsp := 0, locked_sdrsp := 0,
    margin := 5, tfsa := 0, resp := 0, income_freq_months := 3,
    income_first_month := 2, income_day_of_month := 1 }

def stA : St := { assets := [assetA], transactions := [] }

def negUnitsBuyArgs : Args :=
  { type := .buy, account := .margin, xfer_account := none,
    name := "A", units := -7, amount := 1, date := "2021-01-02", fees := 0 }

/-- Counterexample to C2 as stated: from a ledger whose balances are all
nonnegative, a `buy` request with a negative unit count is accepted (no
validation error) and drives the margin balance to -2. -/
theorem c2_negative_balance_counterexample :
    (∀ a ∈ stA.assets, ∀ acct, 0 ≤ getAcct a acct) ∧
      (process_transaction negUnitsBuyArgs stA).1 = none ∧
      getAcct ((process_transaction negUnitsBuyArgs stA).2.assets.getD 0 assetA)
          Account.margin = -2 := by
  decide

/-- C2 (amended): for every transaction sequence whose requests all carry
a nonnegative unit count, starting from a ledger with nonnegative
balances, every balance stays nonnegative after every applied
transaction. -/
theorem c2_balances_nonneg_of_nonneg_units (reqs : List Args) (s : St)
    (hu : ∀ r ∈ reqs, 0 ≤ r.units)
    (hs : ∀ a ∈ s.assets, ∀ acct, 0 ≤ getAcct a acct) :
    ∀ b ∈ (applySeq reqs s).assets, ∀ acct, 0 ≤ getAcct b acct := by
  induction reqs generalizing s with
  | nil => exact hs
  | cons r rs ih =>
    exact ih ((process_transaction r s).2)
      (fun x hx => hu x (List.mem_cons_of_mem _ hx))
      (process_preserves_nonneg r s (hu r (List.mem_cons_self _ _)) hs)

def posUnitsSellArgs : Args :=
  { type := .sell, account := .margin, xfer_account := none,
    name := "A", units := 3, amount := 2, date := "2021-01-02", fees := 0 }

/-- Witness for the amended C2 at a concrete input: after selling 3 of
asset A's 5 margin units, the stored asset is A with margin 2, whose
balances are all still nonnegative. -/
theorem c2_balances_nonneg_witness :
    0 ≤ getAcct (setAcct assetA Account.margin 2) Account.margin :=
  c2_balances_nonneg_of_nonneg_units [posUnitsSellArgs] stA (by decide)
    (by decide) (setAcct assetA Account.margin 2)
    (by exact List.mem_cons_self _ _) Account.margin

/-! ## Transfer validation and conservation -/

theorem process_xfer_eq (args : Args) (s : St) (hx : args.type = TType.xfer) :
    process_transaction args s = xfer_transaction args s := by
  unfold process_transaction
  rw [hx]

def sameAcctXferArgs : Args :=
  { type := .xfer, account := .margin, xfer_account := some .margin,
    name := "A", units := 2, amount := 1, date := "2021-01-02", fees := 0 }

/-- Counterexample to C3 as stated: an xfer whose target account equals
the source account is not rejected; it is applied, a transaction record
is appended, and the margin balance of asset A goes from 5 to 7. -/
theorem c3_same_account_xfer_counterexample :
    (process_transaction sameAcctXferArgs stA).1 = none ∧
      getAcct ((process_transaction sameAcctXferArgs stA).2.assets.getD 0 assetA)
          Account.margin = 7 ∧
      (process_transaction sameAcctXferArgs stA).2.transactions.length =
        stA.transactions.length + 1 := by
  refine ⟨by decide, by decide, by decide⟩

/-- C3 (amended): an xfer is applied exactly when a transfer-target
account is supplied, the asset exists, and the source account holds at
least the transferred units; only a missing target draws the
missing-transfer-target error, and then nothing is written.  A target
equal to the source account is accepted. -/
theorem c3_xfer_validation (args : Args) (s : St)
    (hx : args.type = TType.xfer) :
    ((process_transaction args s).1 = none ↔
      args.xfer_account.isSome ∧
        ∃ a, lookupAsset s.assets args.name = some a ∧
          args.units ≤ getAcct a args.account) ∧
    (args.xfer_account = none →
      process_transaction args s = (some TErr.MissingTransferTarget, s)) := by
  rw [process_xfer_eq args s hx]
  unfold xfer_transaction
  cases hxa : args.xfer_account with
  | none => simp
  | some tgt =>
    dsimp only
    constructor
    · cases hl : lookupAsset s.assets args.name with
      | none => simp
      | some a =>
        dsimp only
        split
        case isTrue hlt =>
          simp only [Option.isSome_some, true_and]
          constructor
          · intro h
            exact absurd h (by simp)
          · rintro ⟨a2, ha2, hle⟩
            cases ha2
            omega
        case isFalse hge =>
          simp only [Option.isSome_some, true_and]
          constructor
          · intro _
            exact ⟨a, rfl, by omega⟩
          · intro _
            trivial
    · intro h
      exact absurd h (by simp)

def crossAcctXferArgs : Args :=
  { type := .xfer, account := .margin, xfer_account := some .tfsa,
    name := "A", units := 2, amount := 1, date := "2021-01-02", fees := 0 }

/-- Witness for the amended C3 at a concrete input. -/
theorem c3_xfer_validation_witness :
    ((process_transaction crossAcctXferArgs stA).1 = none ↔
      crossAcctXferArgs.xfer_account.isSome ∧
        ∃ a, lookupAsset stA.assets crossAcctXferArgs.name = some a ∧
          crossAcctXferArgs.units ≤ getAcct a crossAcctXferArgs.account) ∧
    (crossAcctXferArgs.xfer_account = none →
      process_transaction crossAcctXferArgs stA =
        (some TErr.MissingTransferTarget, stA)) :=
  c3_xfer_validation crossAcctXferArgs stA rfl

theorem setAcct_name (a : Asset) (acct : Account) (v : Int) :
    (setAcct a acct v).name = a.name := by
  cases acct <;> rfl

theorem lookupAsset_updateAsset (l : List Asset) (n : String)
    (f : Asset → Asset) (hf : ∀ a, (f a).name = a.name) :
    lookupAsset (updateAsset l n f) n = (lookupAsset l n).map f := by
  induction l with
  | nil => rfl
  | cons a l ih =>
    unfold lookupAsset updateAsset at ih ⊢
    rw [List.map_cons]
    by_cases hn : (a.name == n) = true
    · have hfa : ((f a).name == n) = true := by
        rw [hf a]
        exact hn
      rw [if_pos hn,
        @List.find?_cons_of_pos _ (fun b => b.name == n) (f a) _ hfa,
        @List.find?_cons_of_pos _ (fun b => b.name == n) a _ hn]
      rfl
    · rw [if_neg hn,
        @List.find?_cons_of_neg _ (fun b => b.name == n) a _ hn,
        @List.find?_cons_of_neg _ (fun b => b.name == n) a _ hn]
      exact ih

def sameAcctXfer3Args : Args :=
  { type := .xfer, account := .margin, xfer_account := some .margin,
    name := "A", units := 3, amount := 1, date := "2021-01-02", fees := 0 }

/-- Counterexample to C4 as stated: a successfully applied xfer whose
target equals its source does not conserve the summed units of the two
named accounts: both name asset A's margin account, whose balance goes
from 5 to 8, so the sum goes from 10 to 16. -/
theorem c4_same_account_xfer_counterexample :
    (process_transaction sameAcctXfer3Args stA).1 = none ∧
      getAcct (stA.assets.getD 0 assetA) Account.margin +
          getAcct (stA.assets.getD 0 assetA) Account.margin = 10 ∧
      getAcct ((process_transaction sameAcctXfer3Args stA).2.assets.getD 0 assetA)
            Account.margin +
          getAcct ((process_transaction sameAcctXfer3Args stA).2.assets.getD 0 assetA)
            Account.margin = 16 := by
  refine ⟨by decide, by decide, by decide⟩

/-- C4 (amended): a successfully applied xfer whose target account
differs from its source account conserves the sum of the two accounts'
unit counts for the transferred asset. -/
theorem c4_xfer_conservation (args : Args) (s : St) (tgt : Account)
    (a a2 : Asset)
    (hx : args.type = TType.xfer)
    (htgt : args.xfer_account = some tgt)
    (hne : tgt ≠ args.account)
    (hok : (process_transaction args s).1 = none)
    (ha : lookupAsset s.assets args.name = some a)
    (ha2 : lookupAsset (process_transaction args s).2.assets args.name = some a2) :
    getAcct a2 args.account + getAcct a2 tgt =
      getAcct a args.account + getAcct a tgt := by
  rw [process_xfer_eq args s hx] at hok ha2
  unfold xfer_transaction at hok ha2
  rw [htgt, ha] at hok ha2
  dsimp only at hok ha2
  split at hok
  case isTrue => exact absurd hok (by simp)
  case isFalse hge =>
    rw [if_neg hge] at ha2
    dsimp only at ha2
    rw [lookupAsset_updateAsset _ _ _ (fun b => setAcct_name b tgt _),
      lookupAsset_updateAsset _ _ _ (fun b => setAcct_name b args.account _),
      ha] at ha2
    simp only [Option.map_some'] at ha2
    cases ha2
    have h1 : ¬(args.account = tgt) := fun h => hne h.symm
    simp [getAcct_setAcct, h1]

/-- Witness for the amended C4 at a concrete input: transferring 2 units
of asset A from margin to tfsa keeps the summed balance at 5. -/
theorem c4_xfer_conservation_witness :
    getAcct (setAcct (setAcct assetA .margin 3) .tfsa 2) Account.margin +
        getAcct (setAcct (setAcct assetA .margin 3) .tfsa 2) Account.tfsa =
      getAcct assetA Account.margin + getAcct assetA Account.tfsa :=
  c4_xfer_conservation crossAcctXferArgs stA .tfsa assetA
    (setAcct (setAcct assetA .margin 3) .tfsa 2) rfl rfl (by decide)
    rfl rfl rfl

/-! ## Derived monetary fields of appended records -/

/-- The per-type stored-total formula: the spec's per-type formula
quantized to cents (the quantization is what the handlers apply). -/
def specTotalRounded (args : Args) : ℚ :=
  match args.type with
  | TType.div => round2 ((args.units : ℚ) * args.amount - args.fees)
  | TType.withdraw => round2 ((args.units : ℚ) * args.amount)
  | _ => round2 ((args.units : ℚ) * args.amount + args.fees)

theorem buy_sell_appended (args : Args) (s : St)
    (h : (buy_sell_transaction args s).1 = none) :
    ∃ r, (buy_sell_transaction args s).2.transactions =
        s.transactions ++ [r] ∧
      r.unit_amount = round2 args.amount ∧ r.fees = round2 args.fees ∧
      r.total = round2 ((args.units : ℚ) * args.amount + args.fees) := by
  unfold buy_sell_transaction at h ⊢
  dsimp only at h ⊢
  repeat' split
  all_goals first
    | exact ⟨_, rfl, rfl, rfl, rfl⟩
    | simp_all

theorem dividend_appended (args : Args) (s : St)
    (h : (dividend_transaction args s).1 = none) :
    ∃ r, (dividend_transaction args s).2.transactions =
        s.transactions ++ [r] ∧
      r.unit_amount = args.amount ∧ r.fees = round2 args.fees ∧
      r.total = round2 ((args.units : ℚ) * args.amount - args.fees) := by
  unfold dividend_transaction at h ⊢
  dsimp only at h ⊢
  repeat' split
  all_goals first
    | exact ⟨_, rfl, rfl, rfl, rfl⟩
    | simp_all

theorem xfer_appended (args : Args) (s : St)
    (h : (xfer_transaction args s).1 = none) :
    ∃ r, (xfer_transaction args s).2.transactions =
        s.transactions ++ [r] ∧
      r.unit_amount = round2 args.amount ∧ r.fees = round2 args.fees ∧
      r.total = round2 ((args.units : ℚ) * args.amount + args.fees) := by
  unfold xfer_transaction at h ⊢
  dsimp only at h ⊢
  repeat' split
  all_goals first
    | exact ⟨_, rfl, rfl, rfl, rfl⟩
    | simp_all

theorem contribute_appended (args : Args) (s : St)
    (h : (contribute_transaction args s).1 = none) :
    ∃ r, (contribute_transaction args s).2.transactions =
        s.transactions ++ [r] ∧
      r.unit_amount = round2 args.amount ∧ r.fees = round2 args.fees ∧
      r.total = round2 ((args.units : ℚ) * args.amount + args.fees) := by
  unfold contribute_transaction at h ⊢
  dsimp only at h ⊢
  repeat' split
  all_goals first
    | exact ⟨_, rfl, rfl, rfl, rfl⟩
    | simp_all

theorem withdrawal_appended (args : Args) (s : St)
    (h : (withdrawal_transaction args s).1 = none) :
    ∃ r, (withdrawal_transaction args s).2.transactions =
        s.transactions ++ [r] ∧
      r.unit_amount = round2 args.amount ∧ r.fees = round2 args.fees ∧
      r.total = round2 ((args.units : ℚ) * args.amount) := by
  unfold withdrawal_transaction at h ⊢
  dsimp only at h ⊢
  repeat' split
  all_goals first
    | exact ⟨_, rfl, rfl, rfl, rfl⟩
    | simp_all

/-- C5 (amended): every successfully applied transaction appends exactly
one record whose `total` is the per-type formula of the spec rounded to 2
decimal places: units·amount+fees for buy, sell, xfer, cont, cont_limit;
units·amount−fees for div; units·amount (fees not added) for withdraw. -/
theorem c5_total_formula (args : Args) (s : St)
    (h : (process_transaction args s).1 = none) :
    ∃ r, (process_transaction args s).2.transactions =
        s.transactions ++ [r] ∧ r.total = specTotalRounded args := by
  cases htype : args.type with
  | buy =>
    have hd : process_transaction args s = buy_sell_transaction args s := by
      unfold process_transaction
      rw [htype]
    rw [hd] at h ⊢
    obtain ⟨r, hr, _, _, ht⟩ := buy_sell_appended args s h
    exact ⟨r, hr, by rw [ht]; simp [specTotalRounded, htype]⟩
  | sell =>
    have hd : process_transaction args s = buy_sell_transaction args s := by
      unfold process_transaction
      rw [htype]
    rw [hd] at h ⊢
    obtain ⟨r, hr, _, _, ht⟩ := buy_sell_appended args s h
    exact ⟨r, hr, by rw [ht]; simp [specTotalRounded, htype]⟩
  | xfer =>
    have hd : process_transaction args s = xfer_transaction args s := by
      unfold process_transaction
      rw [htype]
    rw [hd] at h ⊢
    obtain ⟨r, hr, _, _, ht⟩ := xfer_appended args s h
    exact ⟨r, hr, by rw [ht]; simp [specTotalRounded, htype]⟩
  | cont =>
    have hd : process_transaction args s = contribute_transaction args s := by
      unfold process_transaction
      rw [htype]
    rw [hd] at h ⊢
    obtain ⟨r, hr, _, _, ht⟩ := contribute_appended args s h
    exact ⟨r, hr, by rw [ht]; simp [specTotalRounded, htype]⟩
  | cont_limit =>
    have hd : process_transaction args s = contribute_transaction args s := by
      unfold process_transaction
      rw [htype]
    rw [hd] at h ⊢
    obtain ⟨r, hr, _, _, ht⟩ := contribute_appended args s h
    exact ⟨r, hr, by rw [ht]; simp [specTotalRounded, htype]⟩
  | div =>
    have hd : process_transaction args s = dividend_transaction args s := by
      unfold process_transaction
      rw [htype]
    rw [hd] at h ⊢
    obtain ⟨r, hr, _, _, ht⟩ := dividend_appended args s h
    exact ⟨r, hr, by rw [ht]; simp [specTotalRounded, htype]⟩
  | withdraw =>
    have hd : process_transaction args s = withdrawal_transaction args s := by
      unfold process_transaction
      rw [htype]
    rw [hd] at h ⊢
    obtain ⟨r, hr, _, _, ht⟩ := withdrawal_appended args s h
    exact ⟨r, hr, by rw [ht]; simp [specTotalRounded, htype]⟩

def contCashArgs : Args :=
  { type := .cont, account := .tfsa, xfer_account := none,
    name := "cash", units := 1, amount := 5, date := "2021-01-03", fees := 0 }

/-- Witness for the amended C5 at a concrete input. -/
theorem c5_total_formula_witness :
    ∃ r, (process_transaction contCashArgs stA).2.transactions =
        stA.transactions ++ [r] ∧ r.total = specTotalRounded contCashArgs :=
  c5_total_formula contCashArgs stA rfl

def blankRec : TransRecord :=
  { date := "", type := .buy, name := "", account := "", xfer_account := "",
    units := 0, unit_amount := 0, fees := 0, total := 0 }

def contFracArgs : Args :=
  { type := .cont, account := .tfsa, xfer_account := none,
    name := "cash", units := 1, amount := 333/1000, date := "2021-01-03",
    fees := 0 }

/-- Counterexample to C5 as stated: a successfully applied cont of
$0.333 per unit for 1 unit with no fees stores total $0.33, not the
exact units·amount+fees = $0.333. -/
theorem c5_exact_total_counterexample :
    (process_transaction contFracArgs emptySt).1 = none ∧
      ((process_transaction contFracArgs emptySt).2.transactions.getD 0
          blankRec).total = 33/100 ∧
      ¬((33 : ℚ)/100 =
        (contFracArgs.units : ℚ) * contFracArgs.amount + contFracArgs.fees) := by
  refine ⟨?_, ?_, ?_⟩
  · norm_num [process_transaction, contribute_transaction, contFracArgs,
      emptySt, (show ¬(TType.cont = TType.cont_limit) by decide)]
  · norm_num [process_transaction, contribute_transaction, contFracArgs,
      emptySt, round2, roundHalfEven,
      (show ¬(TType.cont = TType.cont_limit) by decide)]
  · norm_num [contFracArgs]

/-- C10 (amended): for every successfully applied transaction, the fees
and total written to the appended record are rounded to 2 decimal
places, and so is the unit amount for every type except div, whose
handler stores the unit amount unrounded. -/
theorem c10_monetary_fields_rounding (args : Args) (s : St)
    (h : (process_transaction args s).1 = none) :
    ∃ r, (process_transaction args s).2.transactions =
        s.transactions ++ [r] ∧
      r.fees = round2 args.fees ∧
      r.total = specTotalRounded args ∧
      (args.type ≠ TType.div → r.unit_amount = round2 args.amount) ∧
      (args.type = TType.div → r.unit_amount = args.amount) := by
  cases htype : args.type with
  | buy =>
    have hd : process_transaction args s = buy_sell_transaction args s := by
      unfold process_transaction
      rw [htype]
    rw [hd] at h ⊢
    obtain ⟨r, hr, hu, hf, ht⟩ := buy_sell_appended args s h
    exact ⟨r, hr, hf, by rw [ht]; simp [specTotalRounded, htype],
      fun _ => hu, fun hdiv => absurd hdiv (by decide)⟩
  | sell =>
    have hd : process_transaction args s = buy_sell_transaction args s := by
      unfold process_transaction
      rw [htype]
    rw [hd] at h ⊢
    obtain ⟨r, hr, hu, hf, ht⟩ := buy_sell_appended args s h
    exact ⟨r, hr, hf, by rw [ht]; simp [specTotalRounded, htype],
      fun _ => hu, fun hdiv => absurd hdiv (by decide)⟩
  | xfer =>
    have hd : process_transaction args s = xfer_transaction args s := by
      unfold process_transaction
      rw [htype]
    rw [hd] at h ⊢
    obtain ⟨r, hr, hu, hf, ht⟩ := xfer_appended args s h
    exact ⟨r, hr, hf, by rw [ht]; simp [specTotalRounded, htype],
      fun _ => hu, fun hdiv => absurd hdiv (by decide)⟩
  | cont =>
    have hd : process_transaction args s = contribute_transaction args s := by
      unfold process_transaction
      rw [htype]
    rw [hd] at h ⊢
    obtain ⟨r, hr, hu, hf, ht⟩ := contribute_appended args s h
    exact ⟨r, hr, hf, by rw [ht]; simp [specTotalRounded, htype],
      fun _ => hu, fun hdiv => absurd hdiv (by decide)⟩
  | cont_limit =>
    have hd : process_transaction args s = contribute_transaction args s := by
      unfold process_transaction
      rw [htype]
    rw [hd] at h ⊢
    obtain ⟨r, hr, hu, hf, ht⟩ := contribute_appended args s h
    exact ⟨r, hr, hf, by rw [ht]; simp [specTotalRounded, htype],
      fun _ => hu, fun hdiv => absurd hdiv (by decide)⟩
  | div =>
    have hd : process_transaction args s = dividend_transaction args s := by
      unfold process_transaction
      rw [htype]
    rw [hd] at h ⊢
    obtain ⟨r, hr, hu, hf, ht⟩ := dividend_appended args s h
    exact ⟨r, hr, hf, by rw [ht]; simp [specTotalRounded, htype],
      fun hne => absurd rfl hne, fun _ => hu⟩
  | withdraw =>
    have hd : process_transaction args s = withdrawal_transaction args s := by
      unfold process_transaction
      rw [htype]
    rw [hd] at h ⊢
    obtain ⟨r, hr, hu, hf, ht⟩ := withdrawal_appended args s h
    exact ⟨r, hr, hf, by rw [ht]; simp [specTotalRounded, htype],
      fun _ => hu, fun hdiv => absurd hdiv (by decide)⟩

def buyOkArgs : Args :=
  { type := .buy, account := .margin, xfer_account := none,
    name := "A", units := 2, amount := 3, date := "2021-01-03", fees := 1 }

/-- Witness for the amended C10 at a concrete input. -/
theorem c10_monetary_fields_rounding_witness :
    ∃ r, (process_transaction buyOkArgs stA).2.transactions =
        stA.transactions ++ [r] ∧
      r.fees = round2 buyOkArgs.fees ∧
      r.total = specTotalRounded buyOkArgs ∧
      (buyOkArgs.type ≠ TType.div → r.unit_amount = round2 buyOkArgs.amount) ∧
      (buyOkArgs.type = TType.div → r.unit_amount = buyOkArgs.amount) :=
  c10_monetary_fields_rounding buyOkArgs stA rfl

def divFracArgs : Args :=
  { type := .div, account := .margin, xfer_account := none,
    name := "A", units := 1, amount := 333/1000, date := "2021-01-03",
    fees := 0 }

/-- Counterexample to C10 as stated: a successfully applied div with a
per-unit amount of $0.333 stores that unit amount unrounded, and $0.333
is not equal to its 2-decimal rounding $0.33. -/
theorem c10_div_unit_amount_counterexample :
    (process_transaction divFracArgs stA).1 = none ∧
      ((process_transaction divFracArgs stA).2.transactions.getD 0
          blankRec).unit_amount = 333/1000 ∧
      ¬((333 : ℚ)/1000 = round2 (333/1000)) := by
  refine ⟨rfl, ?_, ?_⟩
  · norm_num [process_transaction, dividend_transaction, divFracArgs, stA,
      (show lookupAsset [assetA] "A" = some assetA from rfl),
      (show ¬(assetA.income_per_unit_period = 333/1000) by norm_num [assetA])]
  · norm_num [round2, roundHalfEven]

/-! ## Monthly income schedule -/

/-- C7: in the schedule report a month's cell pair is nonzero only if
the month is eligible (month ≥ income_first_month and
(month − income_first_month) mod income_freq_months = 0); an eligible
month's cells are ((sdrsp+locked_sdrsp)·rate, (margin+tfsa)·rate), an
ineligible month's cells are (0, 0); and for income_freq_months = 3,
income_first_month = 2 the eligible months among 1..12 are exactly
2, 5, 8, 11. -/
theorem c7_schedule_months (a : Asset) (month : Int)
    (hfreq : 0 < a.income_freq_months)
    (hm1 : 1 ≤ month) (hm2 : month ≤ 12) :
    (((schedCell a month).1 ≠ 0 ∨ (schedCell a month).2 ≠ 0) →
      (a.income_first_month ≤ month ∧
        (month - a.income_first_month) % a.income_freq_months = 0)) ∧
    ((a.income_first_month ≤ month ∧
        (month - a.income_first_month) % a.income_freq_months = 0) →
      schedCell a month =
        (((a.sdrsp : ℚ) + (a.locked_sdrsp : ℚ)) * a.income_per_unit_period,
         ((a.margin : ℚ) + (a.tfsa : ℚ)) * a.income_per_unit_period)) ∧
    (¬(a.income_first_month ≤ month ∧
        (month - a.income_first_month) % a.income_freq_months = 0) →
      schedCell a month = (0, 0)) ∧
    (a.income_freq_months = 3 → a.income_first_month = 2 →
      ((a.income_first_month ≤ month ∧
          (month - a.income_first_month) % a.income_freq_months = 0) ↔
        (month = 2 ∨ month = 5 ∨ month = 8 ∨ month = 11))) := by
  unfold schedCell
  by_cases h1 : a.income_first_month ≤ month
  · by_cases h2 : (month - a.income_first_month) % a.income_freq_months = 0
    · rw [if_pos h1, if_pos h2, if_pos h2]
      refine ⟨fun _ => ⟨h1, h2⟩, fun _ => ?_,
        fun hcon => absurd ⟨h1, h2⟩ hcon, fun hf hs => ?_⟩
      · simp only [Prod.mk.injEq]
        constructor <;> ring
      · rw [hf] at h2
        rw [hs] at h1 h2
        exact iff_of_true ⟨by rw [hs]; exact h1, by rw [hf, hs]; exact h2⟩
          (by omega)
    · rw [if_pos h1, if_neg h2, if_neg h2]
      refine ⟨fun hne => hne.elim (fun h => absurd rfl h) (fun h => absurd rfl h),
        fun hc => absurd hc.2 h2, fun _ => rfl, fun hf hs => ?_⟩
      rw [hf] at h2
      rw [hs] at h1 h2
      refine iff_of_false (fun hc => ?_) (by omega)
      rw [hf, hs] at hc
      exact h2 hc.2
  · rw [if_neg h1]
    refine ⟨fun hne => hne.elim (fun h => absurd rfl h) (fun h => absurd rfl h),
      fun hc => absurd hc.1 h1, fun _ => rfl, fun hf hs => ?_⟩
    rw [hs] at h1
    refine iff_of_false (fun hc => ?_) (by omega)
    rw [hs] at hc
    exact h1 hc.1

/-- Witness for C7 at a concrete input: asset A pays every 3 months from
month 2. -/
theorem c7_schedule_months_witness :
    (((schedCell assetA 5).1 ≠ 0 ∨ (schedCell assetA 5).2 ≠ 0) →
      (assetA.income_first_month ≤ 5 ∧
        (5 - assetA.income_first_month) % assetA.income_freq_months = 0)) ∧
    ((assetA.income_first_month ≤ 5 ∧
        (5 - assetA.income_first_month) % assetA.income_freq_months = 0) →
      schedCell assetA 5 =
        (((assetA.sdrsp : ℚ) + (assetA.locked_sdrsp : ℚ)) *
            assetA.income_per_unit_period,
         ((assetA.margin : ℚ) + (assetA.tfsa : ℚ)) *
            assetA.income_per_unit_period)) ∧
    (¬(assetA.income_first_month ≤ 5 ∧
        (5 - assetA.income_first_month) % assetA.income_freq_months = 0) →
      schedCell assetA 5 = (0, 0)) ∧
    (assetA.income_freq_months = 3 → assetA.income_first_month = 2 →
      ((assetA.income_first_month ≤ 5 ∧
          (5 - assetA.income_first_month) % assetA.income_freq_months = 0) ↔
        ((5 : Int) = 2 ∨ (5 : Int) = 5 ∨ (5 : Int) = 8 ∨ (5 : Int) = 11))) :=
  c7_schedule_months assetA 5 (by decide) (by decide) (by decide)

/-! ## TFSA contribution-room summary -/

theorem find?_label_mem (ls : List String) (g : String → Nat × ℚ)
    (lbl : String) (h : lbl ∈ ls) :
    (ls.map (fun l => (l, g l))).find? (fun row => row.1 == lbl) =
      some (lbl, g lbl) := by
  induction ls with
  | nil => cases h
  | cons x xs ih =>
    rw [List.map_cons]
    by_cases hx : (x == lbl) = true
    · have hxe : x = lbl := by simpa using hx
      rw [@List.find?_cons_of_pos (String × Nat × ℚ)
        (fun row => row.1 == lbl) (x, g x) _ hx, hxe]
    · have hxe : ¬(x = lbl) := by simpa using hx
      rw [@List.find?_cons_of_neg (String × Nat × ℚ)
        (fun row => row.1 == lbl) (x, g x) _ hx]
      rcases List.mem_cons.mp h with h | h
      · exact absurd h.symm hxe
      · exact ih h

theorem find?_label_not_mem (ls : List String) (g : String → Nat × ℚ)
    (lbl : String) (h : lbl ∉ ls) :
    (ls.map (fun l => (l, g l))).find? (fun row => row.1 == lbl) = none := by
  induction ls with
  | nil => rfl
  | cons x xs ih =>
    rw [List.map_cons]
    have hx : ¬((x == lbl) = true) := by
      intro hx
      have hxe : x = lbl := by simpa using hx
      exact h (hxe ▸ List.mem_cons_self x xs)
    rw [@List.find?_cons_of_neg (String × Nat × ℚ)
      (fun row => row.1 == lbl) (x, g x) _ hx]
    exact ih (fun hm => h (List.mem_cons_of_mem _ hm))

/-- The `KeyError → 0.0` lookup over the grouped rows agrees with the
plain sum over the filtered, relabelled records. -/
theorem totalForKey_groupRows (trans : List TransRecord) (lbl : String) :
    totalForKey (tfsaGroupRows trans) lbl = sumForLabel trans lbl := by
  by_cases h : lbl ∈ tfsaLabels trans
  · unfold totalForKey tfsaGroupRows
    rw [find?_label_mem _
      (fun l => (countForLabel trans l, sumForLabel trans l)) _ h]
  · unfold totalForKey tfsaGroupRows
    rw [find?_label_not_mem _
      (fun l => (countForLabel trans l, sumForLabel trans l)) _ h]
    have hnil : (tfsaRecords trans).filter
        (fun r => relabelXferIn r == lbl) = [] := by
      rw [List.filter_eq_nil_iff]
      intro r hr hcon
      refine h ?_
      rw [tfsaLabels, List.mem_dedup]
      exact List.mem_map.mpr ⟨r, hr, by simpa using hcon⟩
    rw [sumForLabel, hnil]
    rfl

/-- A concrete log matching the spec's worked example: a $6000
cont_limit, a $1000 cont, a $200 withdraw (all on the tfsa account) and
a $300 xfer into tfsa. -/
def exampleTfsaLog : List TransRecord :=
  [{ date := "2021-01-01", type := .cont_limit, name := "any",
     account := "tfsa", xfer_account := "", units := 1, unit_amount := 6000,
     fees := 0, total := 6000 },
   { date := "2021-02-01", type := .cont, name := "cash",
     account := "tfsa", xfer_account := "", units := 1, unit_amount := 1000,
     fees := 0, total := 1000 },
   { date := "2021-03-01", type := .withdraw, name := "cash",
     account := "tfsa", xfer_account := "", units := 1, unit_amount := 200,
     fees := 0, total := 200 },
   { date := "2021-04-01", type := .xfer, name := "A",
     account := "margin", xfer_account := "tfsa", units := 3,
     unit_amount := 100, fees := 0, total := 300 }]

/-- C8: the contribution-room summary filters the log to the records
with (type in {cont, cont_limit, withdraw} and account = tfsa) or
transfer-target = tfsa, relabels filtered xfer records as xfer_in, and
computes contribution_room as the cont_limit and withdraw sums minus the
cont and xfer_in sums (absent groups contributing 0), appending the
synthetic cont_room row with count 1; on the worked example the room is
$4900. -/
theorem c8_tfsa_summary (trans : List TransRecord) :
    (∀ r, r ∈ tfsaRecords trans ↔
      (r ∈ trans ∧
        (((r.type = TType.cont ∨ r.type = TType.cont_limit ∨
            r.type = TType.withdraw) ∧ r.account = "tfsa") ∨
          r.xfer_account = "tfsa"))) ∧
    contRoom trans =
      sumForLabel trans "cont_limit" + sumForLabel trans "withdraw"
        - sumForLabel trans "cont" - sumForLabel trans "xfer_in" ∧
    (gen_report_tfsa_summary trans).getLast? =
      some ("cont_room", 1, contRoom trans) ∧
    contRoom exampleTfsaLog = 4900 := by
  refine ⟨?_, ?_, ?_, ?_⟩
  · intro r
    simp [tfsaRecords, List.mem_filter, tfsaFilter]
    tauto
  · rw [contRoom, totalForKey_groupRows, totalForKey_groupRows,
      totalForKey_groupRows, totalForKey_groupRows]
  · rw [gen_report_tfsa_summary, List.getLast?_concat]
  · rw [contRoom, totalForKey_groupRows, totalForKey_groupRows,
      totalForKey_groupRows, totalForKey_groupRows]
    simp only [sumForLabel, tfsaRecords, tfsaFilter, relabelXferIn,
      typeLabel, exampleTfsaLog]
    norm_num [List.filter, (by decide : ¬(TType.cont_limit = TType.xfer)),
      (by decide : ¬(TType.cont = TType.xfer)),
      (by decide : ¬(TType.withdraw = TType.xfer)),
      (by decide : (("cont_limit" : String) == "cont_limit") = true),
      (by decide : (("cont_limit" : String) == "withdraw") = false),
      (by decide : (("cont_limit" : String) == "cont") = false),
      (by decide : (("cont_limit" : String) == "xfer_in") = false),
      (by decide : (("withdraw" : String) == "cont_limit") = false),
      (by decide : (("withdraw" : String) == "withdraw") = true),
      (by decide : (("withdraw" : String) == "cont") = false),
      (by decide : (("withdraw" : String) == "xfer_in") = false),
      (by decide : (("cont" : String) == "cont_limit") = false),
      (by decide : (("cont" : String) == "withdraw") = false),
      (by decide : (("cont" : String) == "cont") = true),
      (by decide : (("cont" : String) == "xfer_in") = false),
      (by decide : (("xfer_in" : String) == "cont_limit") = false),
      (by decide : (("xfer_in" : String) == "withdraw") = false),
      (by decide : (("xfer_in" : String) == "cont") = false),
      (by decide : (("xfer_in" : String) == "xfer_in") = true)]

/-! ## Actual monthly income -/

theorem sorted_getLast_max {l : List TransRecord} {m : TransRecord}
    (hs : List.Sorted dateLE l) (hm : l.getLast? = some m) :
    ∀ x ∈ l, x.date ≤ m.date := by
  induction l with
  | nil => cases hm
  | cons a t ih =>
    cases t with
    | nil =>
      cases hm
      intro x hx
      rcases List.mem_singleton.mp hx with rfl
      exact le_refl _
    | cons b t2 =>
      rw [List.getLast?_cons_cons] at hm
      intro x hx
      rcases List.mem_cons.mp hx with rfl | hx2
      · have hmem : m ∈ b :: t2 := List.mem_of_getLast?_eq_some hm
        exact List.rel_of_sorted_cons hs m hmem
      · exact ih hs.of_cons hm x hx2

theorem sortValuesDate_eq_nil {l : List TransRecord}
    (h : sortValuesDate l = []) : l = [] := by
  have hp := List.perm_insertionSort dateLE l
  rw [sortValuesDate] at h
  rw [h] at hp
  exact hp.symm.eq_nil

def negAsset : Asset :=
  { name := "N", market := "TSE", type := "stock", subtype := "common",
    income_per_unit_period := 1, sdrsp := 0, locked_sdrsp := 0,
    margin := -1, tfsa := 0, resp := 0, income_freq_months := 3,
    income_first_month := 1, income_day_of_month := 1 }

def negDivRec : TransRecord :=
  { date := "2021-01-05", type := .div, name := "N", account := "margin",
    xfer_account := "", units := 1, unit_amount := 6, fees := 0,
    total := 6 }

/-- Counterexample to C9 as stated: asset N's margin holding is -1,
which is nonzero, and the pair has a div record with total $6 and
income_freq_months 3, yet the report cell is 0 because the code tests
`a[acct] > 0`, not nonzero — and 0 is not 6/3. -/
theorem c9_negative_holding_counterexample :
    getAcct negAsset Account.margin ≠ 0 ∧
      divHistory [negDivRec] negAsset.name (accountStr Account.margin) =
        [negDivRec] ∧
      actualIncomeCell [negDivRec] negAsset Account.margin = 0 ∧
      ¬((0 : ℚ) =
        negDivRec.total / (negAsset.income_freq_months : ℚ)) := by
  refine ⟨by decide, rfl, ?_, ?_⟩
  · unfold actualIncomeCell
    rw [if_neg (by decide)]
    exact zero_div _
  · norm_num [negDivRec, negAsset]

/-- C9 (amended): in the actual-income report, an account cell reports
the `total` of the most recent div record of the (asset, account) pair
divided by income_freq_months only when the holding is strictly
positive and the div history is nonempty; a cell with a non-positive
holding (zero or negative) or with no div history reports 0. -/
theorem c9_actual_income (trans : List TransRecord) (a : Asset)
    (acct : Account) (hfreq : 0 < a.income_freq_months) :
    (¬(0 < getAcct a acct) → actualIncomeCell trans a acct = 0) ∧
    (divHistory trans a.name (accountStr acct) = [] →
      actualIncomeCell trans a acct = 0) ∧
    (0 < getAcct a acct →
      divHistory trans a.name (accountStr acct) ≠ [] →
      ∃ r, r ∈ divHistory trans a.name (accountStr acct) ∧
        (∀ x ∈ divHistory trans a.name (accountStr acct), x.date ≤ r.date) ∧
        actualIncomeCell trans a acct =
          r.total / (a.income_freq_months : ℚ)) := by
  refine ⟨?_, ?_, ?_⟩
  · intro h0
    unfold actualIncomeCell
    rw [if_neg h0]
    exact zero_div _
  · intro hnil
    unfold actualIncomeCell
    rw [hnil]
    split <;> exact zero_div _
  · intro hpos hne
    cases hm : (sortValuesDate (divHistory trans a.name (accountStr acct))).getLast? with
    | none =>
      rw [List.getLast?_eq_none_iff] at hm
      exact absurd (sortValuesDate_eq_nil hm) hne
    | some m =>
      refine ⟨m, ?_, ?_, ?_⟩
      · have := List.mem_of_getLast?_eq_some hm
        rw [sortValuesDate, List.mem_insertionSort] at this
        exact this
      · intro x hx
        refine sorted_getLast_max ?_ hm x ?_
        · exact List.sorted_insertionSort dateLE _
        · rw [sortValuesDate, List.mem_insertionSort]
          exact hx
      · unfold actualIncomeCell
        rw [if_pos hpos, hm]

def divLog : List TransRecord :=
  [{ date := "2021-01-05", type := .div, name := "A", account := "margin",
     xfer_account := "", units := 5, unit_amount := 1, fees := 0, total := 5 },
   { date := "2021-04-05", type := .div, name := "A", account := "margin",
     xfer_account := "", units := 5, unit_amount := 1, fees := 0, total := 6 },
   { date := "2021-02-05", type := .div, name := "B", account := "margin",
     xfer_account := "", units := 1, unit_amount := 1, fees := 0, total := 1 }]

/-- Witness for C9 at a concrete input: asset A holds 5 margin units and
has two margin dividends on record. -/
theorem c9_actual_income_witness :
    ∃ r, r ∈ divHistory divLog assetA.name (accountStr Account.margin) ∧
      (∀ x ∈ divHistory divLog assetA.name (accountStr Account.margin),
        x.date ≤ r.date) ∧
      actualIncomeCell divLog assetA Account.margin =
        r.total / (assetA.income_freq_months : ℚ) :=
  (c9_actual_income divLog assetA Account.margin (by decide)).2.2
    (by decide) (by decide)

/-! ## Monthly income projection totals -/

theorem colSum_full_of_preserved (assets : List Asset) (g : MIRow → ℚ)
    (hg : ∀ r, g (addYearly (addMonthly r)) = g r) :
    colSum (assets.map fullAssetRow) g = colSum (assets.map baseRow) g := by
  unfold colSum
  rw [List.map_map, List.map_map]
  refine congrArg List.sum (List.map_congr_left ?_)
  intro a _
  exact hg (baseRow a)

theorem colSum_full_monthly (assets : List Asset) :
    colSum (assets.map fullAssetRow) (fun r => r.monthly_total) =
      colSum (assets.map baseRow) (fun r => r.resp) +
        colSum (assets.map baseRow) (fun r => r.total_rrsp) +
        colSum (assets.map baseRow) (fun r => r.total_nonrrsp) := by
  induction assets with
  | nil => simp [colSum]
  | cons a l ih =>
    simp only [colSum, List.map_cons, List.sum_cons] at ih ⊢
    rw [show (fullAssetRow a).monthly_total =
      (baseRow a).resp + (baseRow a).total_rrsp + (baseRow a).total_nonrrsp
      from rfl, ih]
    ring

theorem colSum_full_yearly (assets : List Asset) :
    colSum (assets.map fullAssetRow) (fun r => r.yearly_total) =
      (colSum (assets.map baseRow) (fun r => r.resp) +
        colSum (assets.map baseRow) (fun r => r.total_rrsp) +
        colSum (assets.map baseRow) (fun r => r.total_nonrrsp)) * 12 := by
  induction assets with
  | nil => simp [colSum]
  | cons a l ih =>
    simp only [colSum, List.map_cons, List.sum_cons] at ih ⊢
    rw [show (fullAssetRow a).yearly_total =
      ((baseRow a).resp + (baseRow a).total_rrsp +
        (baseRow a).total_nonrrsp) * 12 from rfl, ih]
    ring

theorem tm_row_eq (assets : List Asset) :
    addYearly (addMonthly (monthlyByAccountRow (assets.map baseRow))) =
      specTotalMonthlyRow assets := by
  unfold specTotalMonthlyRow addYearly addMonthly monthlyByAccountRow
  dsimp only
  simp only [MIRow.mk.injEq]
  refine ⟨trivial, ?_, ?_, ?_, ?_, ?_, ?_, ?_, ?_, ?_⟩
  · exact (colSum_full_of_preserved assets (fun r => r.sdrsp) (fun r => rfl)).symm
  · exact (colSum_full_of_preserved assets (fun r => r.locked_sdrsp) (fun r => rfl)).symm
  · exact (colSum_full_of_preserved assets (fun r => r.margin) (fun r => rfl)).symm
  · exact (colSum_full_of_preserved assets (fun r => r.tfsa) (fun r => rfl)).symm
  · exact (colSum_full_of_preserved assets (fun r => r.resp) (fun r => rfl)).symm
  · exact (colSum_full_of_preserved assets (fun r => r.total_rrsp) (fun r => rfl)).symm
  · exact (colSum_full_of_preserved assets (fun r => r.total_nonrrsp) (fun r => rfl)).symm
  · exact (colSum_full_monthly assets).symm
  · rw [colSum_full_yearly assets]

theorem snap_eq (assets : List Asset)
    (h : ∀ a ∈ assets, a.name ≠ "TOTAL MONTHLY") :
    ((assets.map baseRow ++
        [monthlyByAccountRow (assets.map baseRow)]).map addMonthly).filter
        (fun r => r.name == "TOTAL MONTHLY") =
      [addMonthly (monthlyByAccountRow (assets.map baseRow))] := by
  rw [List.map_append, List.filter_append]
  have h1 : ((assets.map baseRow).map addMonthly).filter
      (fun r => r.name == "TOTAL MONTHLY") = [] := by
    rw [List.filter_eq_nil_iff]
    intro r hr
    rw [List.map_map, List.mem_map] at hr
    obtain ⟨a, ha, rfl⟩ := hr
    simpa using h a ha
  rw [h1, List.nil_append, List.map_cons, List.map_nil]
  rw [List.filter_cons_of_pos (by simp [addMonthly, monthlyByAccountRow])]
  rfl

/-- C6 (amended): provided no asset is itself named "TOTAL MONTHLY", the
projection report consists of the per-asset rows followed by a
"TOTAL MONTHLY" row that is the exact column-wise sum of the per-asset
rows, and a "TOTAL YEARLY" row whose account and total columns are 12
times the "TOTAL MONTHLY" row's, with its own yearly_total cell 0. -/
theorem c6_projection_totals (assets : List Asset)
    (h : ∀ a ∈ assets, a.name ≠ "TOTAL MONTHLY") :
    gen_report_monthly_income assets =
      assets.map fullAssetRow ++
        [specTotalMonthlyRow assets, specTotalYearlyRow assets] := by
  unfold gen_report_monthly_income
  dsimp only
  rw [snap_eq assets h]
  simp only [List.map_append, List.map_cons, List.map_nil, List.map_map,
    List.append_assoc, List.cons_append, List.nil_append]
  congr 1
  simp only [List.cons.injEq, and_true]
  refine ⟨tm_row_eq assets, ?_⟩
  unfold specTotalYearlyRow
  dsimp only
  rw [← tm_row_eq assets]
  unfold addYearly addMonthly monthlyByAccountRow colSum
  dsimp only
  simp only [MIRow.mk.injEq, List.map_cons, List.map_nil, List.sum_cons,
    List.sum_nil]
  refine ⟨trivial, by ring, by ring, by ring, by ring, by ring, by ring,
    by ring, by ring, trivial⟩

def assetB2 : Asset :=
  { name := "B", market := "TSE", type := "stock", subtype := "common",
    income_per_unit_period := 1, sdrsp := 1, locked_sdrsp := 0, margin := 0,
    tfsa := 0, resp := 0, income_freq_months := 1, income_first_month := 1,
    income_day_of_month := 1 }

/-- Witness for the amended C6 at a concrete two-asset ledger. -/
theorem c6_projection_totals_witness :
    gen_report_monthly_income [assetA, assetB2] =
      [assetA, assetB2].map fullAssetRow ++
        [specTotalMonthlyRow [assetA, assetB2],
         specTotalYearlyRow [assetA, assetB2]] :=
  c6_projection_totals [assetA, assetB2] (by decide)

def tmNamedAsset : Asset :=
  { name := "TOTAL MONTHLY", market := "TSE", type := "stock",
    subtype := "common", income_per_unit_period := 1, sdrsp := 1,
    locked_sdrsp := 0, margin := 0, tfsa := 0, resp := 0,
    income_freq_months := 1, income_first_month := 1,
    income_day_of_month := 1 }

def blankMIRow : MIRow :=
  { name := "", sdrsp := 0, locked_sdrsp := 0, margin := 0, tfsa := 0,
    resp := 0, total_rrsp := 0, total_nonrrsp := 0, monthly_total := 0,
    yearly_total := 0 }

/-- Counterexample to C6 as stated: if the ledger contains an asset
literally named "TOTAL MONTHLY" (paying 1 per unit on 1 sdrsp unit),
the snapshot that feeds the "TOTAL YEARLY" row picks up that asset row
too, so the TOTAL YEARLY sdrsp cell is 36 rather than 12 times the
TOTAL MONTHLY row's sdrsp cell (24). -/
theorem c6_total_yearly_counterexample :
    ((gen_report_monthly_income [tmNamedAsset, assetB2]).getD 3
        blankMIRow).sdrsp = 36 ∧
      12 * ((gen_report_monthly_income [tmNamedAsset, assetB2]).getD 2
        blankMIRow).sdrsp = 24 ∧
      ¬((36 : ℚ) = 24) := by
  refine ⟨?_, ?_, by norm_num⟩
  · norm_num [gen_report_monthly_income, baseRow, monthlyByAccountRow,
      addMonthly, addYearly, colSum, acctIncome, getAcct, tmNamedAsset,
      assetB2, List.getD,
      (by decide : (("TOTAL MONTHLY" : String) == "TOTAL MONTHLY") = true),
      (by decide : (("B" : String) == "TOTAL MONTHLY") = false)]
  · norm_num [gen_report_monthly_income, baseRow, monthlyByAccountRow,
      addMonthly, addYearly, colSum, acctIncome, getAcct, tmNamedAsset,
      assetB2, List.getD,
      (by decide : (("TOTAL MONTHLY" : String) == "TOTAL MONTHLY") = true),
      (by decide : (("B" : String) == "TOTAL MONTHLY") = false)]
